/-
Verification of the `funder` stock-portfolio tracker.

Shallow embedding of the Python sources (`data_fetcher.py`,
`portfolio_manager.py`, `logger.py`, `aifunder.py`) in Lean 4.

Modelling conventions, used throughout:
* Python `datetime` instants are `Nat` (seconds); `datetime.min` is `0`;
  `timedelta(seconds = k)` is `+ k`; `.date()` is `dayOf` (day number).
  All `datetime.now()` calls inside a single method invocation return the
  same instant `now`, which is passed as an argument.
* Python `dict` is an insertion-ordered association list
  `List (String × α)`; `d[k] = v` is `dictInsert`, `d.get(k)` is `dictGet?`.
* Python floats are modelled as exact rationals `Rat`.
* Network I/O (`requests.get`, `response.json()`) is an oracle argument:
  either the parsed response data or the message of a raised exception.
* `time.sleep` and log `print`s have no observable effect in the model and
  are elided; `self.api_provider` save/restore in `get_current_prices` /
  `get_company_name` (every path restores it in `finally`) is elided there
  but `api_provider` is modelled where it matters, in `_check_rate_limits`.
-/
import Mathlib

namespace Funder

/-! ### Python dict as an insertion-ordered association list -/

/-- `d.get(k)`: first value bound to `k`, if any. -/
def dictGet? {α : Type} (d : List (String × α)) (k : String) : Option α :=
  match d with
  | [] => none
  | (k0, v) :: rest => if k0 = k then some v else dictGet? rest k

/-- `d.get(k, dflt)`. -/
def dictGetD {α : Type} (d : List (String × α)) (k : String) (dflt : α) : α :=
  (dictGet? d k).getD dflt

/-- `d[k] = v`: replace in place if the key is present, else append. -/
def dictInsert {α : Type} (d : List (String × α)) (k : String) (v : α) :
    List (String × α) :=
  match d with
  | [] => [(k, v)]
  | (k0, v0) :: rest =>
      if k0 = k then (k, v) :: rest else (k0, v0) :: dictInsert rest k v

/-- The key list of a dict. -/
def dictKeys {α : Type} (d : List (String × α)) : List String :=
  d.map Prod.fst

/-! ### Python string helpers -/

/-- Python `s.upper()` for ASCII strings: uppercase every character. -/
def pyUpper (s : String) : String :=
  ⟨s.data.map Char.toUpper⟩

/-- Python `pat in s` (substring test), via `splitOn`: a non-empty pattern
occurs in `s` iff splitting on it yields more than one piece. -/
def strContains (s pat : String) : Bool :=
  (s.splitOn pat).length != 1

/-! ### `data_fetcher.py`: provider configuration

`DataFetcher.__init__` (lines 36-49): the provider order and cooldown
duration are fixed constants of the class. -/

/-- `self.provider_order = ["finnhub", "alpha_vantage"]`. -/
def provider_order : List String := ["finnhub", "alpha_vantage"]

/-- `self.provider_cooldown_seconds = 300`. -/
def provider_cooldown_seconds : Nat := 300

/-- The providers that `get_current_prices` dispatches to (lines 129-136);
any other entry of `provider_order` would yield `price = None` without a
network call. -/
def knownProvider (p : String) : Bool :=
  p = "alpha_vantage" || p = "finnhub" || p = "yfinance"

/-- Outcome of one provider-fetch call (`self._get_<provider>_price(ticker)`)
as observed by `get_current_prices`: a returned value (`Optional[float]`),
a raised `RateLimitError`, or another raised exception. -/
inductive ProviderOutcome where
  | ok (p : Option Rat)
  | rateLimited (msg : String)
  | exn (msg : String)
deriving DecidableEq

/-- Mutable `DataFetcher` state used by `get_current_prices`:
`self.cached_prices` and `self.provider_cooldowns`. A missing cooldown
entry defaults to `datetime.min = 0` (line 119). -/
structure PricesState where
  cached_prices : List (String × Rat)
  provider_cooldowns : List (String × Nat)
deriving DecidableEq

/-- Result of the inner provider loop (lines 117-161) for one ticker:
the price (if any), the updated cooldown table, and the provider-fetch
calls that were made, in order. -/
structure TickerFetch where
  price : Option Rat
  cooldowns : List (String × Nat)
  calls : List (String × String)
deriving DecidableEq

/-- `data_fetcher.py` lines 117-161: try each provider of `order` in turn
for `ticker`. Providers whose cooldown lies in the future are skipped
(lines 119-121). A returned price breaks the loop (lines 139-140);
`RateLimitError` sets the provider's cooldown to `now + 300` and moves on
(lines 141-148); another exception sets the cooldown only when its message
mentions throttling (lines 149-158). `oracle provider ticker` stands for
the call `self._get_<provider>_price(ticker)`. -/
def fetchFromProviders (oracle : String → String → ProviderOutcome)
    (now : Nat) (ticker : String) (cooldowns : List (String × Nat)) :
    List String → TickerFetch
  | [] => ⟨none, cooldowns, []⟩
  | provider :: rest =>
      if now < dictGetD cooldowns provider 0 then
        fetchFromProviders oracle now ticker cooldowns rest
      else if knownProvider provider then
        match oracle provider ticker with
        | .ok (some p) => ⟨some p, cooldowns, [(provider, ticker)]⟩
        | .ok none =>
            let r := fetchFromProviders oracle now ticker cooldowns rest
            ⟨r.price, r.cooldowns, (provider, ticker) :: r.calls⟩
        | .rateLimited _ =>
            let cds := dictInsert cooldowns provider
              (now + provider_cooldown_seconds)
            let r := fetchFromProviders oracle now ticker cds rest
            ⟨r.price, r.cooldowns, (provider, ticker) :: r.calls⟩
        | .exn msg =>
            let cds :=
              if strContains msg "Too Many Requests" ||
                  strContains msg "Rate limited" then
                dictInsert cooldowns provider
                  (now + provider_cooldown_seconds)
              else cooldowns
            let r := fetchFromProviders oracle now ticker cds rest
            ⟨r.price, r.cooldowns, (provider, ticker) :: r.calls⟩
      else
        -- unknown provider: `price = None`, no call made (line 135-136)
        fetchFromProviders oracle now ticker cooldowns rest

/-- Result of `get_current_prices`: the returned `prices` dict, the final
fetcher state, and every provider-fetch call made, in order. -/
structure PricesResult where
  prices : List (String × Option Rat)
  state : PricesState
  calls : List (String × String)
deriving DecidableEq

/-- The per-ticker body of `get_current_prices` (lines 112-175), folded
over the ticker list. On success the price is stored in the result and in
`self.cached_prices` under the ticker as passed (lines 163-165); otherwise
the cached value (or `None`) is used (lines 168-171). -/
def get_current_prices_go (oracle : String → String → ProviderOutcome)
    (now : Nat) : List String → List (String × Option Rat) → PricesState →
    List (String × String) → PricesResult
  | [], prices, st, calls => ⟨prices, st, calls⟩
  | ticker :: rest, prices, st, calls =>
      let r := fetchFromProviders oracle now ticker st.provider_cooldowns
        provider_order
      match r.price with
      | some p =>
          get_current_prices_go oracle now rest
            (dictInsert prices ticker (some p))
            ⟨dictInsert st.cached_prices ticker p, r.cooldowns⟩
            (calls ++ r.calls)
      | none =>
          get_current_prices_go oracle now rest
            (dictInsert prices ticker (dictGet? st.cached_prices ticker))
            ⟨st.cached_prices, r.cooldowns⟩
            (calls ++ r.calls)

/-- `DataFetcher.get_current_prices` (lines 89-177). -/
def get_current_prices (oracle : String → String → ProviderOutcome)
    (now : Nat) (st : PricesState) (tickers : List String) : PricesResult :=
  get_current_prices_go oracle now tickers [] st []

/-! ### `data_fetcher.py`: rate limiting and the provider fetch methods -/

/-- Day number of an instant: `datetime.now().date()`. -/
def dayOf (t : Nat) : Nat := t / 86400

/-- `DataFetcher` state read and written by `_check_rate_limits` and the
provider fetch methods (lines 15-18 and 27). -/
structure RateState where
  api_provider : String
  daily_call_count : Nat
  last_reset_date : Nat
  last_api_call : Option Nat
deriving DecidableEq

/-- `DataFetcher._check_rate_limits` (lines 55-87). Resets the daily
counter on a new day (lines 66-68); for Alpha Vantage raises
`RateLimitError` once 25 daily calls were made (lines 72-74), else only
sleeps (elided). Returns the updated state and the raised error's message,
if any. -/
def check_rate_limits (st : RateState) (now : Nat) : RateState × Option String :=
  let st1 :=
    if dayOf now ≠ st.last_reset_date then
      { st with daily_call_count := 0, last_reset_date := dayOf now }
    else st
  if st1.api_provider = "alpha_vantage" then
    if 25 ≤ st1.daily_call_count then
      (st1, some "Alpha Vantage daily API limit reached (25 calls)")
    else (st1, none)
  else (st1, none)

/-- Parsed Alpha Vantage `GLOBAL_QUOTE` response body (line 198's
`response.json()`): `quotePrice` is `some p` iff `"Global Quote"` with
`"05. price"` is present, `note` is the `"Note"` field if present. -/
structure AVResponse where
  quotePrice : Option Rat
  note : Option String
deriving DecidableEq

/-- Outcome of a Python call that may raise `RateLimitError`. -/
inductive PyOutcome (α : Type) where
  | ok (a : α)
  | rateLimitError (msg : String)
deriving DecidableEq

/-- `DataFetcher._get_alpha_vantage_price` (lines 179-219).
`resp` is the network oracle: `.error msg` when `requests.get` raises
(caught at line 216, returning `None`), `.ok data` for a parsed response.
The returned `Bool` records whether a network call was attempted.
`_check_rate_limits` runs before the `try`, so its `RateLimitError`
propagates (line 184) before any network call; a response with a `"Note"`
(rate-limit notice) returns `None` quietly (lines 202-207), as does an
unexpected response shape (lines 208-211). -/
def get_alpha_vantage_price (st : RateState) (now : Nat)
    (resp : Except String AVResponse) :
    PyOutcome (Option Rat) × RateState × Bool :=
  match check_rate_limits st now with
  | (st1, some msg) => (.rateLimitError msg, st1, false)
  | (st1, none) =>
      match resp with
      | .error _ => (.ok none, st1, true)
      | .ok data =>
          let st2 := { st1 with
            last_api_call := some now
            daily_call_count := st1.daily_call_count + 1 }
          match data.quotePrice with
          | some p => (.ok (some p), st2, true)
          | none =>
              match data.note with
              | some _ => (.ok none, st2, true)
              | none => (.ok none, st2, true)

/-- Discriminator: did the call raise `RateLimitError`? -/
def isRateLimitError {α : Type} : PyOutcome α → Bool
  | .rateLimitError _ => true
  | .ok _ => false

/-- Parsed Finnhub quote response body: `c` is the `"c"` (current price)
field if present. -/
structure FHResponse where
  c : Option Rat
deriving DecidableEq

/-- `DataFetcher._get_finnhub_price` (lines 221-250). `_check_rate_limits`
with `api_provider = "finnhub"` never raises (it only sleeps), so this
method never raises `RateLimitError`; any price `c ≤ 0` or missing `"c"`
field yields `None` quietly (lines 239-243), and a raised network error is
caught and yields `None` (lines 248-250). -/
def get_finnhub_price (st : RateState) (now : Nat)
    (resp : Except String FHResponse) :
    PyOutcome (Option Rat) × RateState × Bool :=
  match check_rate_limits st now with
  | (st1, some msg) => (.rateLimitError msg, st1, false)
  | (st1, none) =>
      match resp with
      | .error _ => (.ok none, st1, true)
      | .ok data =>
          let st2 := { st1 with last_api_call := some now }
          match data.c with
          | some v => if 0 < v then (.ok (some v), st2, true) else (.ok none, st2, true)
          | none => (.ok none, st2, true)

/-! ### `data_fetcher.py`: `get_company_name` (lines 276-353) -/

/-- Outcome of one `self._fetch_<provider>_name(ticker)` call as observed
by `get_company_name`: a returned `Optional[str]`, a raised
`RateLimitError`, or another raised exception. -/
inductive NameOutcome where
  | ok (s : Option String)
  | rateLimited (msg : String)
  | exn (msg : String)
deriving DecidableEq

/-- Mutable `DataFetcher` state used by `get_company_name`:
`self.company_cache` and `self.provider_cooldowns`. -/
structure NameState where
  company_cache : List (String × String)
  provider_cooldowns : List (String × Nat)
deriving DecidableEq

/-- Result of `get_company_name`: the returned name, the final state, and
every provider name-fetch call made, in order. -/
structure NameResult where
  name : String
  state : NameState
  calls : List (String × String)
deriving DecidableEq

/-- The provider loop of `get_company_name` (lines 302-345) over the
(already uppercased) ticker `t`, threading the running `name` value.
A non-empty candidate differing from the ticker breaks the loop
(lines 320-324); on `RateLimitError` the cooldown is set and the loop
`continue`s, skipping the post-block (lines 326-331); on another
exception `candidate = None` (lines 332-336); the post-block keeps the
first truthy candidate as a fallback `name` (lines 341-345). -/
def nameLoop (oracle : String → String → NameOutcome) (now : Nat)
    (t : String) (cooldowns : List (String × Nat)) (name : Option String) :
    List String → Option String × List (String × Nat) × List (String × String)
  | [] => (name, cooldowns, [])
  | provider :: rest =>
      if now < dictGetD cooldowns provider 0 then
        nameLoop oracle now t cooldowns name rest
      else if knownProvider provider then
        match oracle provider t with
        | .ok cand =>
            if (cand.getD "") ≠ "" ∧ pyUpper (cand.getD "") ≠ t then
              (cand, cooldowns, [(provider, t)])
            else
              let name2 :=
                if name = none ∧ (cand.getD "") ≠ "" then cand else name
              let r := nameLoop oracle now t cooldowns name2 rest
              (r.1, r.2.1, (provider, t) :: r.2.2)
        | .rateLimited _ =>
            let cds := dictInsert cooldowns provider
              (now + provider_cooldown_seconds)
            let r := nameLoop oracle now t cds name rest
            (r.1, r.2.1, (provider, t) :: r.2.2)
        | .exn _ =>
            -- candidate = None; the post-block is a no-op
            let r := nameLoop oracle now t cooldowns name rest
            (r.1, r.2.1, (provider, t) :: r.2.2)
      else
        -- unknown provider: candidate = None, no call made (lines 318-319)
        nameLoop oracle now t cooldowns name rest

/-- `DataFetcher.get_company_name` (lines 276-353). The ticker is
uppercased (line 296); a truthy cached name is returned at once
(lines 298-300); otherwise the provider loop runs, the ticker itself is
the fallback for a falsy result (lines 348-349), and the final name is
cached under the uppercased ticker (line 352). -/
def get_company_name (oracle : String → String → NameOutcome) (now : Nat)
    (st : NameState) (ticker : String) : NameResult :=
  let t := pyUpper ticker
  let cached := (dictGet? st.company_cache t).getD ""
  if cached ≠ "" then ⟨cached, st, []⟩
  else
    let r := nameLoop oracle now t st.provider_cooldowns none provider_order
    let name := match r.1 with
      | some n => if n = "" then t else n
      | none => t
    ⟨name, ⟨dictInsert st.company_cache t name, r.2.1⟩, r.2.2⟩

/-! ### `logger.py`: portfolio persistence (lines 36-88)

`json.dump` / `json.load` round-trip a JSON value through its textual
form losslessly; the file contents are modelled as the JSON value itself
(`Option Json`: `none` when the config file does not exist). -/

/-- JSON values, as produced by `json.dump` and read back by `json.load`. -/
inductive Json where
  | num (q : Rat)
  | str (s : String)
  | arr (xs : List Json)
  | obj (fields : List (String × Json))
  | null

/-- `PortfolioLogger.save_portfolio` (lines 36-82): build the `config`
dict, with `company_names` and `description` only when provided
(lines 61-72), and write it as JSON (line 81-82; the `.bak` backup copy,
lines 73-80, does not affect the value written). Returns the file
contents. -/
def save_portfolio (total_investment : Rat) (stocks : List String)
    (allocations shares initial_prices : List Rat)
    (purchase_dates : List String) (company_names : Option (List String))
    (description : Option String) : Json :=
  let base : List (String × Json) :=
    [("total_investment", .num total_investment),
     ("stocks", .arr (stocks.map .str)),
     ("allocations", .arr (allocations.map .num)),
     ("shares", .arr (shares.map .num)),
     ("initial_prices", .arr (initial_prices.map .num)),
     ("purchase_dates", .arr (purchase_dates.map .str))]
  let withNames := match company_names with
    | some ns => base ++ [("company_names", .arr (ns.map .str))]
    | none => base
  let withDesc := match description with
    | some d => withNames ++ [("description", .str d)]
    | none => withNames
  .obj withDesc

/-- `PortfolioLogger.load_portfolio` (lines 84-88): return the parsed file
contents when the config file exists, else `None`. -/
def load_portfolio (file : Option Json) : Option Json :=
  file

/-- Read a string list back out of a loaded JSON field. -/
def jsonStrList? : Json → Option (List String)
  | .arr xs => xs.mapM fun j => match j with | .str s => some s | _ => none
  | _ => none

/-- Read a number list back out of a loaded JSON field. -/
def jsonNumList? : Json → Option (List Rat)
  | .arr xs => xs.mapM fun j => match j with | .num q => some q | _ => none
  | _ => none

/-- Field access `config["key"]` on a loaded JSON object. -/
def jsonField? (j : Json) (k : String) : Option Json :=
  match j with
  | .obj fields => dictGet? fields k
  | _ => none

/-! ### `portfolio_manager.py` -/

/-- The five parallel lists of `PortfolioManager` (lines 4-11). -/
structure PortfolioManager where
  stocks : List String
  allocations : List Rat
  shares : List Rat
  initial_prices : List Rat
  purchase_dates : List String
deriving DecidableEq

/-- `PortfolioManager.add_stock` (lines 56-62): append the stock and its
data only when the ticker is not already present; an empty (falsy)
purchase date defaults to today's date. -/
def PortfolioManager.add_stock (pm : PortfolioManager) (ticker : String)
    (perc shares purchase_price : Rat) (purchase_date today : String) :
    PortfolioManager :=
  if ticker ∈ pm.stocks then pm
  else
    { stocks := pm.stocks ++ [ticker]
      allocations := pm.allocations ++ [perc]
      shares := pm.shares ++ [shares]
      initial_prices := pm.initial_prices ++ [purchase_price]
      purchase_dates := pm.purchase_dates ++
        [if purchase_date ≠ "" then purchase_date else today] }

/-- The loop body accumulator of `calculate_totals` (lines 64-72):
`current_prices.get(ticker, initial_price)` may itself hold `None`
(line 68), in which case the initial price is used (line 69; the stored
initial prices are always floats, never `None`). -/
def calculate_totals_go (current_prices : List (String × Option Rat)) :
    List (String × Rat × Rat) → Rat → Rat → Rat × Rat
  | [], total_pl, total_value => (total_pl, total_value)
  | (ticker, shares, initial_price) :: rest, total_pl, total_value =>
      let cp0 : Option Rat :=
        match dictGet? current_prices ticker with
        | none => some initial_price
        | some v => v
      let current_price : Rat :=
        match cp0 with
        | some c => c
        | none => initial_price
      calculate_totals_go current_prices rest
        (total_pl + (current_price - initial_price) * shares)
        (total_value + current_price * shares)

/-- `PortfolioManager.calculate_totals` (lines 64-72): fold over
`zip(stocks, shares, initial_prices)` (Python `zip` truncates to the
shortest list). -/
def PortfolioManager.calculate_totals (pm : PortfolioManager)
    (current_prices : List (String × Option Rat)) : Rat × Rat :=
  calculate_totals_go current_prices
    (pm.stocks.zip (pm.shares.zip pm.initial_prices)) 0 0

/-! ### `aifunder.py`: single-flight portfolio refresh

`StockPortfolioTracker` fields `_closing`, `_updating` and `_update_lock`
(lines 26-30); `update_now` (lines 77-85) and `update_portfolio`
(lines 356-495). The lock's `acquire(blocking=False)` is an atomic
test-and-set; one invocation of `update_portfolio` is modelled as a
transition on the coordinator state, with the body's outcome (normal
completion, the early `return` when no prices were fetched at line 381,
or an exception caught at line 482) given as an argument. -/

structure TrackerState where
  closing : Bool
  has_stocks : Bool
  update_lock : Bool
  updating : Bool
deriving DecidableEq

/-- How the refresh body (lines 376-483) ends. -/
inductive RefreshOutcome where
  | normal
  | noPrices
  | raises (msg : String)
deriving DecidableEq

/-- `StockPortfolioTracker.update_portfolio` (lines 356-495): early
returns before the lock when closing or without stocks (lines 357-361);
non-blocking lock acquisition, returning at once when already held
(lines 364-366); else set `_updating` (line 367), run the body, and in
`finally` clear `_updating` and release the lock on every exit path
(lines 484-490). Returns the new state and whether a refresh ran (the
lock was acquired). -/
def update_portfolio (st : TrackerState) (outcome : RefreshOutcome) :
    TrackerState × Bool :=
  if st.closing then (st, false)
  else if ¬ st.has_stocks then (st, false)
  else if st.update_lock then (st, false)
  else
    let running := { st with update_lock := true, updating := true }
    match outcome with
    | .noPrices => ({ running with updating := false, update_lock := false }, true)
    | .normal => ({ running with updating := false, update_lock := false }, true)
    | .raises _ => ({ running with updating := false, update_lock := false }, true)

/-- `StockPortfolioTracker.update_now` (lines 77-85) followed by the
spawned thread's `update_portfolio` run: when `_updating` is set the
trigger is a no-op (lines 79-81), else the refresh runs. -/
def trigger_refresh (st : TrackerState) (outcome : RefreshOutcome) :
    TrackerState × Bool :=
  if st.updating then (st, false)
  else update_portfolio st outcome

/-! ## Library lemmas about the dict and string models -/

theorem dictGet?_insert_self {α : Type} (d : List (String × α)) (k : String)
    (v : α) : dictGet? (dictInsert d k v) k = some v := by
  induction d with
  | nil => simp [dictInsert, dictGet?]
  | cons hd tl ih =>
      obtain ⟨k0, v0⟩ := hd
      by_cases h : k0 = k <;> simp [dictInsert, dictGet?, h, ih]

theorem dictGet?_insert_ne {α : Type} (d : List (String × α)) (k k2 : String)
    (v : α) (hne : k ≠ k2) : dictGet? (dictInsert d k v) k2 = dictGet? d k2 := by
  induction d with
  | nil => simp [dictInsert, dictGet?, hne]
  | cons hd tl ih =>
      obtain ⟨k0, v0⟩ := hd
      by_cases h : k0 = k
      · subst h; simp [dictInsert, dictGet?, hne]
      · simp [dictInsert, dictGet?, h, ih]

theorem dictKeys_nil {α : Type} : dictKeys ([] : List (String × α)) = [] := rfl

theorem dictKeys_cons {α : Type} (k0 : String) (v0 : α)
    (tl : List (String × α)) :
    dictKeys ((k0, v0) :: tl) = k0 :: dictKeys tl := rfl

theorem mem_dictKeys_insert {α : Type} (d : List (String × α)) (k s : String)
    (v : α) : s ∈ dictKeys (dictInsert d k v) ↔ s = k ∨ s ∈ dictKeys d := by
  induction d with
  | nil =>
      simp only [dictInsert, dictKeys_nil, dictKeys_cons, List.mem_cons,
        List.not_mem_nil, or_false]
  | cons hd tl ih =>
      obtain ⟨k0, v0⟩ := hd
      by_cases h : k0 = k
      · subst h
        simp [dictInsert, dictKeys_cons]
      · simp [dictInsert, h, dictKeys_cons, ih]
        tauto

theorem dictGetD_insert_self {α : Type} (d : List (String × α)) (k : String)
    (v dflt : α) : dictGetD (dictInsert d k v) k dflt = v := by
  simp [dictGetD, dictGet?_insert_self]

theorem dictGetD_insert_ne {α : Type} (d : List (String × α)) (k k2 : String)
    (v dflt : α) (hne : k ≠ k2) :
    dictGetD (dictInsert d k v) k2 dflt = dictGetD d k2 dflt := by
  simp [dictGetD, dictGet?_insert_ne d k k2 v hne]

theorem pyUpper_ne_empty (s : String) (h : s ≠ "") : pyUpper s ≠ "" := by
  intro hc
  apply h
  cases s with
  | mk data =>
      cases data with
      | nil => rfl
      | cons c cs =>
          have hd := congrArg String.data hc
          simp [pyUpper] at hd

/-! ## Lemmas about the provider loop of `get_current_prices` -/

/-- A provider whose cooldown lies in the future is never consulted by the
provider loop, and its cooldown entry is left unchanged. -/
theorem fetch_cooldown_skip (oracle : String → String → ProviderOutcome)
    (now : Nat) (t p : String) :
    ∀ (provs : List String) (cds : List (String × Nat)),
    now < dictGetD cds p 0 →
    (∀ x, (p, x) ∉ (fetchFromProviders oracle now t cds provs).calls) ∧
    dictGetD (fetchFromProviders oracle now t cds provs).cooldowns p 0 =
      dictGetD cds p 0 := by
  intro provs
  induction provs with
  | nil =>
      intro cds h
      exact ⟨fun x => by simp [fetchFromProviders], rfl⟩
  | cons q rest ih =>
      intro cds h
      by_cases hq : now < dictGetD cds q 0
      · simpa [fetchFromProviders, hq] using ih cds h
      · have hpq : p ≠ q := fun he => hq (he ▸ h)
        by_cases hk : knownProvider q
        · cases ho : oracle q t with
          | ok po =>
              cases po with
              | some v =>
                  refine ⟨fun x hx => ?_, ?_⟩
                  · simp [fetchFromProviders, hq, hk, ho] at hx
                    exact hpq hx.1
                  · simp [fetchFromProviders, hq, hk, ho]
              | none =>
                  have hr := ih cds h
                  refine ⟨fun x hx => ?_, ?_⟩
                  · simp [fetchFromProviders, hq, hk, ho] at hx
                    rcases hx with ⟨h1, _⟩ | h1
                    · exact hpq h1
                    · exact hr.1 x h1
                  · simpa [fetchFromProviders, hq, hk, ho] using hr.2
          | rateLimited msg =>
              have hpres : dictGetD (dictInsert cds q
                  (now + provider_cooldown_seconds)) p 0 = dictGetD cds p 0 :=
                dictGetD_insert_ne cds q p _ 0 (Ne.symm hpq)
              have hr := ih (dictInsert cds q (now + provider_cooldown_seconds))
                (by rw [hpres]; exact h)
              refine ⟨fun x hx => ?_, ?_⟩
              · simp [fetchFromProviders, hq, hk, ho] at hx
                rcases hx with ⟨h1, _⟩ | h1
                · exact hpq h1
                · exact hr.1 x h1
              · have := hr.2
                simp only [fetchFromProviders, if_neg hq, if_pos hk, ho]
                rw [this, hpres]
          | exn msg =>
              by_cases hm : (strContains msg "Too Many Requests" ||
                  strContains msg "Rate limited") = true
              · have hpres : dictGetD (dictInsert cds q
                    (now + provider_cooldown_seconds)) p 0 = dictGetD cds p 0 :=
                  dictGetD_insert_ne cds q p _ 0 (Ne.symm hpq)
                have hr := ih (dictInsert cds q (now + provider_cooldown_seconds))
                  (by rw [hpres]; exact h)
                refine ⟨fun x hx => ?_, ?_⟩
                · simp [fetchFromProviders, hq, hk, ho, hm] at hx
                  rcases hx with ⟨h1, _⟩ | h1
                  · exact hpq h1
                  · exact hr.1 x h1
                · have := hr.2
                  simp only [fetchFromProviders, if_neg hq, if_pos hk, ho,
                    if_pos hm]
                  rw [this, hpres]
              · have hr := ih cds h
                refine ⟨fun x hx => ?_, ?_⟩
                · simp [fetchFromProviders, hq, hk, ho, hm] at hx
                  rcases hx with ⟨h1, _⟩ | h1
                  · exact hpq h1
                  · exact hr.1 x h1
                · have := hr.2
                  simp only [fetchFromProviders, if_neg hq, if_pos hk, ho,
                    if_neg hm]
                  rw [this]
        · simpa [fetchFromProviders, hq, hk] using ih cds h

/-- When every provider of the list is in cooldown, the provider loop
makes no call, returns no price, and leaves the cooldown table unchanged. -/
theorem fetch_all_cooldown (oracle : String → String → ProviderOutcome)
    (now : Nat) (t : String) :
    ∀ (provs : List String) (cds : List (String × Nat)),
    (∀ q ∈ provs, now < dictGetD cds q 0) →
    fetchFromProviders oracle now t cds provs = ⟨none, cds, []⟩ := by
  intro provs
  induction provs with
  | nil => intro cds _; rfl
  | cons q rest ih =>
      intro cds h
      have hq : now < dictGetD cds q 0 := h q (List.mem_cons_self q rest)
      rw [fetchFromProviders, if_pos hq]
      exact ih cds fun r hr => h r (List.mem_cons_of_mem q hr)

/-- When no provider returns a price for `s`, the provider loop yields no
price for `s`. -/
theorem fetch_no_price (oracle : String → String → ProviderOutcome)
    (now : Nat) (s : String)
    (hno : ∀ prov q, oracle prov s ≠ .ok (some q)) :
    ∀ (provs : List String) (cds : List (String × Nat)),
    (fetchFromProviders oracle now s cds provs).price = none := by
  intro provs
  induction provs with
  | nil => intro cds; rfl
  | cons q rest ih =>
      intro cds
      by_cases hq : now < dictGetD cds q 0
      · simpa [fetchFromProviders, hq] using ih cds
      · by_cases hk : knownProvider q
        · cases ho : oracle q s with
          | ok po =>
              cases po with
              | some v => exact absurd ho (hno q v)
              | none => simpa [fetchFromProviders, hq, hk, ho] using ih cds
          | rateLimited msg =>
              simpa [fetchFromProviders, hq, hk, ho] using
                ih (dictInsert cds q (now + provider_cooldown_seconds))
          | exn msg =>
              by_cases hm : (strContains msg "Too Many Requests" ||
                  strContains msg "Rate limited") = true
              · simpa [fetchFromProviders, hq, hk, ho, hm] using
                  ih (dictInsert cds q (now + provider_cooldown_seconds))
              · simpa [fetchFromProviders, hq, hk, ho, hm] using ih cds
        · simpa [fetchFromProviders, hq, hk] using ih cds

/-! ## Lemmas about `get_current_prices_go` -/

/-- The key set of the returned price dict is the initial keys plus the
requested tickers. -/
theorem go_keys (oracle : String → String → ProviderOutcome) (now : Nat) :
    ∀ (tickers : List String) (prices : List (String × Option Rat))
      (st : PricesState) (calls : List (String × String)) (s : String),
    s ∈ dictKeys (get_current_prices_go oracle now tickers prices st calls).prices
      ↔ s ∈ dictKeys prices ∨ s ∈ tickers := by
  intro tickers
  induction tickers with
  | nil =>
      intro prices st calls s
      simp [get_current_prices_go]
  | cons t rest ih =>
      intro prices st calls s
      cases hr : (fetchFromProviders oracle now t st.provider_cooldowns
          provider_order).price with
      | some p =>
          rw [get_current_prices_go]
          simp only [hr, ih, mem_dictKeys_insert, List.mem_cons]
          tauto
      | none =>
          rw [get_current_prices_go]
          simp only [hr, ih, mem_dictKeys_insert, List.mem_cons]
          tauto

/-- When no provider ever returns a price for `s`, the returned dict maps
`s` to its initial cached value (possibly `none`), for any occurrence of
`s` in the ticker list. -/
theorem go_no_price_cached (oracle : String → String → ProviderOutcome)
    (now : Nat) (s : String) (V : Option Rat)
    (hno : ∀ prov q, oracle prov s ≠ .ok (some q)) :
    ∀ (tickers : List String) (prices : List (String × Option Rat))
      (st : PricesState) (calls : List (String × String)),
    dictGet? st.cached_prices s = V →
    (s ∈ tickers ∨ dictGet? prices s = some V) →
    dictGet? (get_current_prices_go oracle now tickers prices st calls).prices s
      = some V := by
  intro tickers
  induction tickers with
  | nil =>
      intro prices st calls hV hin
      rcases hin with hin | hin
      · exact absurd hin (List.not_mem_nil s)
      · simpa [get_current_prices_go] using hin
  | cons t rest ih =>
      intro prices st calls hV hin
      cases hr : (fetchFromProviders oracle now t st.provider_cooldowns
          provider_order).price with
      | some p =>
          have hts : t ≠ s := by
            intro he
            rw [he, fetch_no_price oracle now s hno] at hr
            exact Option.noConfusion hr
          rw [get_current_prices_go]
          simp only [hr]
          refine ih _ _ _ ?_ ?_
          · simpa [dictGet?_insert_ne st.cached_prices t s p hts] using hV
          · rcases hin with hin | hin
            · rcases List.mem_cons.mp hin with he | hm
              · exact absurd he.symm hts
              · exact Or.inl hm
            · exact Or.inr (by
                simpa [dictGet?_insert_ne prices t s _ hts] using hin)
      | none =>
          rw [get_current_prices_go]
          simp only [hr]
          by_cases hts : t = s
          · subst hts
            refine ih _ _ _ hV (Or.inr ?_)
            rw [hV, dictGet?_insert_self]
          · refine ih _ _ _ hV ?_
            rcases hin with hin | hin
            · rcases List.mem_cons.mp hin with he | hm
              · exact absurd he.symm hts
              · exact Or.inl hm
            · exact Or.inr (by
                simpa [dictGet?_insert_ne prices t s _ hts] using hin)

/-- A provider whose cooldown lies in the future is never consulted during
a whole `get_current_prices` run. -/
theorem go_no_calls_cooldown (oracle : String → String → ProviderOutcome)
    (now : Nat) (p : String) :
    ∀ (tickers : List String) (prices : List (String × Option Rat))
      (st : PricesState) (calls : List (String × String)),
    now < dictGetD st.provider_cooldowns p 0 →
    (∀ x, (p, x) ∉ calls) →
    ∀ x, (p, x) ∉
      (get_current_prices_go oracle now tickers prices st calls).calls := by
  intro tickers
  induction tickers with
  | nil =>
      intro prices st calls hcd hc x
      simpa [get_current_prices_go] using hc x
  | cons t rest ih =>
      intro prices st calls hcd hc x
      have hskip := fetch_cooldown_skip oracle now t p provider_order
        st.provider_cooldowns hcd
      have hc2 : ∀ y, (p, y) ∉ calls ++
          (fetchFromProviders oracle now t st.provider_cooldowns
            provider_order).calls := by
        intro y hy
        rcases List.mem_append.mp hy with hy | hy
        · exact hc y hy
        · exact hskip.1 y hy
      cases hr : (fetchFromProviders oracle now t st.provider_cooldowns
          provider_order).price with
      | some q =>
          rw [get_current_prices_go]
          simp only [hr]
          exact ih _ _ _ (by rw [show (⟨dictInsert st.cached_prices t q,
            (fetchFromProviders oracle now t st.provider_cooldowns
              provider_order).cooldowns⟩ : PricesState).provider_cooldowns =
            (fetchFromProviders oracle now t st.provider_cooldowns
              provider_order).cooldowns from rfl, hskip.2]; exact hcd) hc2 x
      | none =>
          rw [get_current_prices_go]
          simp only [hr]
          exact ih _ _ _ (by rw [show (⟨st.cached_prices,
            (fetchFromProviders oracle now t st.provider_cooldowns
              provider_order).cooldowns⟩ : PricesState).provider_cooldowns =
            (fetchFromProviders oracle now t st.provider_cooldowns
              provider_order).cooldowns from rfl, hskip.2]; exact hcd) hc2 x

/-- With every provider in cooldown, a whole run makes no call, leaves the
state unchanged, and maps any requested symbol without a cache entry to
`none`. -/
theorem go_all_cooldown (oracle : String → String → ProviderOutcome)
    (now : Nat) :
    ∀ (tickers : List String) (prices : List (String × Option Rat))
      (st : PricesState) (calls : List (String × String)),
    (∀ q ∈ provider_order, now < dictGetD st.provider_cooldowns q 0) →
    (get_current_prices_go oracle now tickers prices st calls).calls = calls ∧
    (get_current_prices_go oracle now tickers prices st calls).state = st ∧
    ∀ s, dictGet? st.cached_prices s = none →
      (s ∈ tickers ∨ dictGet? prices s = some none) →
      dictGet? (get_current_prices_go oracle now tickers prices st calls).prices s
        = some none := by
  intro tickers
  induction tickers with
  | nil =>
      intro prices st calls hcd
      refine ⟨rfl, rfl, fun s hs hin => ?_⟩
      rcases hin with hin | hin
      · exact absurd hin (List.not_mem_nil s)
      · simpa [get_current_prices_go] using hin
  | cons t rest ih =>
      intro prices st calls hcd
      have hfetch := fetch_all_cooldown oracle now t provider_order
        st.provider_cooldowns hcd
      rw [get_current_prices_go]
      simp only [hfetch, List.append_nil]
      have ihr := ih (dictInsert prices t (dictGet? st.cached_prices t))
        st calls hcd
      refine ⟨ihr.1, ihr.2.1, fun s hs hin => ?_⟩
      by_cases hts : t = s
      · cases hts
        refine ihr.2.2 t hs (Or.inr ?_)
        rw [hs, dictGet?_insert_self]
      · refine ihr.2.2 s hs ?_
        rcases hin with hin | hin
        · rcases List.mem_cons.mp hin with he | hm
          · exact absurd he.symm hts
          · exact Or.inl hm
        · exact Or.inr (by
            simpa [dictGet?_insert_ne prices t s _ hts] using hin)

/-! ## Claims about `data_fetcher.py` -/

/-- C1: `get_current_prices` returns a mapping whose key set is exactly
the requested symbols; a symbol for which no provider yields a price maps
to its cached last-known price (`none` when no cache entry exists) and is
never omitted; and a requested symbol with all providers in cooldown and
no cache entry maps to `none` with no provider fetch attempted for it. -/
theorem get_current_prices_complete
    (oracle : String → String → ProviderOutcome) (now : Nat)
    (st : PricesState) (tickers : List String) (s : String) :
    (s ∈ dictKeys (get_current_prices oracle now st tickers).prices ↔
      s ∈ tickers) ∧
    (s ∈ tickers → (∀ prov q, oracle prov s ≠ .ok (some q)) →
      dictGet? (get_current_prices oracle now st tickers).prices s =
        some (dictGet? st.cached_prices s)) ∧
    ((∀ q ∈ provider_order, now < dictGetD st.provider_cooldowns q 0) →
      dictGet? st.cached_prices s = none → s ∈ tickers →
      dictGet? (get_current_prices oracle now st tickers).prices s = some none ∧
      ∀ prov, (prov, s) ∉ (get_current_prices oracle now st tickers).calls) := by
  refine ⟨?_, ?_, ?_⟩
  · rw [get_current_prices, go_keys]
    simp [dictKeys]
  · intro hin hno
    exact go_no_price_cached oracle now s (dictGet? st.cached_prices s) hno
      tickers [] st [] rfl (Or.inl hin)
  · intro hcd hcache hin
    have h := go_all_cooldown oracle now tickers [] st [] hcd
    refine ⟨h.2.2 s hcache (Or.inl hin), fun prov hmem => ?_⟩
    rw [get_current_prices, h.1] at hmem
    exact List.not_mem_nil _ hmem

/-- Witness for C1 at a concrete state: both providers in cooldown, no
cache entry for `"XYZ"`: the result maps `"XYZ"` to `none`, its key set is
exactly the request, and no fetch was attempted. -/
theorem get_current_prices_complete_witness :
    ("XYZ" ∈ dictKeys (get_current_prices (fun _ _ => .ok none) 0
        ⟨[], [("finnhub", 1000), ("alpha_vantage", 1000)]⟩ ["XYZ"]).prices ↔
      "XYZ" ∈ ["XYZ"]) ∧
    (dictGet? (get_current_prices (fun _ _ => .ok none) 0
        ⟨[], [("finnhub", 1000), ("alpha_vantage", 1000)]⟩ ["XYZ"]).prices "XYZ"
      = some none ∧
    ∀ prov, (prov, "XYZ") ∉ (get_current_prices (fun _ _ => .ok none) 0
        ⟨[], [("finnhub", 1000), ("alpha_vantage", 1000)]⟩ ["XYZ"]).calls) := by
  have h := get_current_prices_complete (fun _ _ => ProviderOutcome.ok none) 0
    ⟨[], [("finnhub", 1000), ("alpha_vantage", 1000)]⟩ ["XYZ"] "XYZ"
  exact ⟨h.1, h.2.2 (by decide) (by decide) (by decide)⟩

/-- C2: when the first provider (`"finnhub"`) raises `RateLimitError` and
the second (`"alpha_vantage"`) returns a valid price, the result carries
the second provider's price, the first provider's cooldown expiry becomes
`now + provider_cooldown_seconds`, and any later call made before that
expiry never consults the first provider. -/
theorem rate_limited_fallback
    (oracle : String → String → ProviderOutcome) (now : Nat)
    (st : PricesState) (t msg : String) (p : Rat)
    (h1 : oracle "finnhub" t = .rateLimited msg)
    (h2 : oracle "alpha_vantage" t = .ok (some p))
    (h3 : ¬ now < dictGetD st.provider_cooldowns "finnhub" 0)
    (h4 : ¬ now < dictGetD st.provider_cooldowns "alpha_vantage" 0) :
    dictGet? (get_current_prices oracle now st [t]).prices t = some (some p) ∧
    dictGetD (get_current_prices oracle now st [t]).state.provider_cooldowns
      "finnhub" 0 = now + provider_cooldown_seconds ∧
    ∀ now2, now2 < now + provider_cooldown_seconds →
      ∀ (oracle2 : String → String → ProviderOutcome) tickers2 x,
        ("finnhub", x) ∉ (get_current_prices oracle2 now2
          (get_current_prices oracle now st [t]).state tickers2).calls := by
  have h5 : ¬ now < dictGetD (dictInsert st.provider_cooldowns "finnhub"
      (now + provider_cooldown_seconds)) "alpha_vantage" 0 := by
    rwa [dictGetD_insert_ne _ _ _ _ _ (by decide)]
  have hfetch : fetchFromProviders oracle now t st.provider_cooldowns
      provider_order =
      ⟨some p, dictInsert st.provider_cooldowns "finnhub"
        (now + provider_cooldown_seconds),
       [("finnhub", t), ("alpha_vantage", t)]⟩ := by
    rw [provider_order]
    simp only [fetchFromProviders, knownProvider, h1, h2, if_neg h3, if_neg h5]
    simp
  have hrun : get_current_prices oracle now st [t] =
      ⟨[(t, some p)],
       ⟨dictInsert st.cached_prices t p,
        dictInsert st.provider_cooldowns "finnhub"
          (now + provider_cooldown_seconds)⟩,
       [("finnhub", t), ("alpha_vantage", t)]⟩ := by
    rw [get_current_prices, get_current_prices_go]
    simp only [hfetch]
    rfl
  rw [hrun]
  refine ⟨by simp [dictGet?], dictGetD_insert_self _ _ _ _, ?_⟩
  intro now2 hlt oracle2 tickers2 x
  exact go_no_calls_cooldown oracle2 now2 "finnhub" tickers2 [] _ []
    (by rw [show (⟨dictInsert st.cached_prices t p,
        dictInsert st.provider_cooldowns "finnhub"
          (now + provider_cooldown_seconds)⟩ : PricesState).provider_cooldowns =
        dictInsert st.provider_cooldowns "finnhub"
          (now + provider_cooldown_seconds) from rfl,
      dictGetD_insert_self]; exact hlt)
    (fun y => List.not_mem_nil _) x

/-- Witness for C2 at a concrete oracle and empty initial state. -/
theorem rate_limited_fallback_witness :
    dictGet? (get_current_prices
        (fun pr _ => if pr = "finnhub" then .rateLimited "limit"
          else .ok (some 101)) 5 ⟨[], []⟩ ["IBM"]).prices "IBM"
      = some (some 101) ∧
    dictGetD (get_current_prices
        (fun pr _ => if pr = "finnhub" then .rateLimited "limit"
          else .ok (some 101)) 5 ⟨[], []⟩ ["IBM"]).state.provider_cooldowns
        "finnhub" 0 = 5 + provider_cooldown_seconds ∧
    ∀ now2, now2 < 5 + provider_cooldown_seconds →
      ∀ (oracle2 : String → String → ProviderOutcome) tickers2 x,
        ("finnhub", x) ∉ (get_current_prices oracle2 now2
          (get_current_prices
            (fun pr _ => if pr = "finnhub" then .rateLimited "limit"
              else .ok (some 101)) 5 ⟨[], []⟩ ["IBM"]).state tickers2).calls :=
  rate_limited_fallback
    (fun pr _ => if pr = "finnhub" then .rateLimited "limit"
      else .ok (some 101)) 5 ⟨[], []⟩ "IBM" "limit" 101
    (by simp) (by simp) (by simp [dictGetD, dictGet?]) (by simp [dictGetD, dictGet?])

/-- C4 counterexample: after the Alpha Vantage quota `RateLimitError` is
handled at time 0, the provider's cooldown expiry is 300 seconds — not
the provider's daily reset — and at time 300 of the same day the fetcher
attempts Alpha Vantage again, so the provider is not excluded for the
rest of the day. -/
theorem quota_cooldown_counterexample :
    dictGetD (get_current_prices
        (fun pr _ => if pr = "alpha_vantage" then
          .rateLimited "Alpha Vantage daily API limit reached (25 calls)"
          else .ok none) 0 ⟨[], []⟩ ["IBM"]).state.provider_cooldowns
      "alpha_vantage" 0 = 300 ∧
    dayOf 300 = dayOf 0 ∧
    ("alpha_vantage", "IBM") ∈ (get_current_prices
        (fun pr _ => if pr = "alpha_vantage" then
          .rateLimited "Alpha Vantage daily API limit reached (25 calls)"
          else .ok none) 300
        (get_current_prices
          (fun pr _ => if pr = "alpha_vantage" then
            .rateLimited "Alpha Vantage daily API limit reached (25 calls)"
            else .ok none) 0 ⟨[], []⟩ ["IBM"]).state ["IBM"]).calls := by
  decide

/-- C4 (amended): when the Alpha Vantage daily quota is exhausted for the
current date, `_get_alpha_vantage_price` raises `RateLimitError` at once,
before any network call; and `get_current_prices` reacts to a provider's
`RateLimitError` by setting that provider's cooldown expiry to
`now + provider_cooldown_seconds` (300 s, not the rest of the day) and
moving on to the remaining providers. -/
theorem quota_exhausted_handling :
    (∀ (st : RateState) (now : Nat) (resp : Except String AVResponse),
      st.api_provider = "alpha_vantage" → st.last_reset_date = dayOf now →
      25 ≤ st.daily_call_count →
      get_alpha_vantage_price st now resp =
        (.rateLimitError "Alpha Vantage daily API limit reached (25 calls)",
         st, false)) ∧
    (∀ (oracle : String → String → ProviderOutcome) (now : Nat)
      (t q msg : String) (rest : List String) (cds : List (String × Nat)),
      ¬ now < dictGetD cds q 0 → knownProvider q = true →
      oracle q t = .rateLimited msg →
      fetchFromProviders oracle now t cds (q :: rest) =
        ⟨(fetchFromProviders oracle now t
            (dictInsert cds q (now + provider_cooldown_seconds)) rest).price,
         (fetchFromProviders oracle now t
            (dictInsert cds q (now + provider_cooldown_seconds)) rest).cooldowns,
         (q, t) :: (fetchFromProviders oracle now t
            (dictInsert cds q (now + provider_cooldown_seconds)) rest).calls⟩ ∧
      dictGetD (dictInsert cds q (now + provider_cooldown_seconds)) q 0 =
        now + provider_cooldown_seconds) := by
  constructor
  · intro st now resp hap hdate hquota
    rw [get_alpha_vantage_price]
    have hc : check_rate_limits st now =
        (st, some "Alpha Vantage daily API limit reached (25 calls)") := by
      rw [check_rate_limits]
      simp [hdate.symm, hap, hquota, Nat.not_lt.mpr hquota]
    rw [hc]
  · intro oracle now t q msg rest cds hcd hk ho
    constructor
    · rw [fetchFromProviders, if_neg hcd, if_pos hk, ho]
    · exact dictGetD_insert_self _ _ _ _

/-- Witness for C4 (amended) at a concrete exhausted state and a concrete
rate-limited provider call. -/
theorem quota_exhausted_handling_witness :
    (get_alpha_vantage_price ⟨"alpha_vantage", 25, 0, none⟩ 7
        (.ok ⟨some 42, none⟩) =
      (.rateLimitError "Alpha Vantage daily API limit reached (25 calls)",
       ⟨"alpha_vantage", 25, 0, none⟩, false)) ∧
    dictGetD (dictInsert ([] : List (String × Nat)) "alpha_vantage"
      (7 + provider_cooldown_seconds)) "alpha_vantage" 0 =
      7 + provider_cooldown_seconds :=
  ⟨quota_exhausted_handling.1 ⟨"alpha_vantage", 25, 0, none⟩ 7
      (.ok ⟨some 42, none⟩) rfl (by decide) (by decide),
   (quota_exhausted_handling.2
      (fun _ _ => .rateLimited "limit") 7 "IBM" "alpha_vantage" "limit"
      [] [] (by decide) (by decide) rfl).2⟩

/-- C5 counterexample: an Alpha Vantage response whose body carries a
throttling `"Note"` (and no price) is returned as an ordinary no-data
result (`None`), not raised as `RateLimitError`. -/
theorem note_not_rateLimited_counterexample :
    (get_alpha_vantage_price ⟨"alpha_vantage", 0, 0, none⟩ 0
      (.ok ⟨none, some "Our standard API call frequency is 5 calls per minute"⟩)).1
      = .ok none ∧
    isRateLimitError (get_alpha_vantage_price ⟨"alpha_vantage", 0, 0, none⟩ 0
      (.ok ⟨none,
        some "Our standard API call frequency is 5 calls per minute"⟩)).1
      = false := by
  decide

/-- C5 (amended): the provider fetchers distinguish a valid price from
no-data, but a rate-limit notice in a response body is returned as
ordinary no-data, never raised: with the daily quota available, an Alpha
Vantage body with a throttling `"Note"` and no price yields `.ok none`
and a body with a price yields that price; every `RateLimitError` raised
by `_get_alpha_vantage_price` comes from the pre-call quota check
`_check_rate_limits`; and `_get_finnhub_price` never raises
`RateLimitError`. -/
theorem rate_limit_detection :
    (∀ (st : RateState) (now : Nat) (note : String),
      (check_rate_limits st now).2 = none →
      (get_alpha_vantage_price st now (.ok ⟨none, some note⟩)).1 = .ok none) ∧
    (∀ (st : RateState) (now : Nat) (p : Rat) (note : Option String),
      (check_rate_limits st now).2 = none →
      (get_alpha_vantage_price st now (.ok ⟨some p, note⟩)).1 = .ok (some p)) ∧
    (∀ (st : RateState) (now : Nat) (resp : Except String AVResponse)
      (msg : String),
      (get_alpha_vantage_price st now resp).1 = .rateLimitError msg →
      (check_rate_limits st now).2 = some msg) ∧
    (∀ (st : RateState) (now : Nat) (resp : Except String FHResponse),
      st.api_provider = "finnhub" →
      isRateLimitError (get_finnhub_price st now resp).1 = false) := by
  refine ⟨?_, ?_, ?_, ?_⟩
  · intro st now note hok
    rw [get_alpha_vantage_price]
    rcases hc : check_rate_limits st now with ⟨st1, err⟩
    rw [hc] at hok
    cases err with
    | some m => exact absurd hok (by simp)
    | none => rfl
  · intro st now p note hok
    rw [get_alpha_vantage_price]
    rcases hc : check_rate_limits st now with ⟨st1, err⟩
    rw [hc] at hok
    cases err with
    | some m => exact absurd hok (by simp)
    | none => rfl
  · intro st now resp msg hrl
    rw [get_alpha_vantage_price] at hrl
    rcases hc : check_rate_limits st now with ⟨st1, err⟩
    rw [hc] at hrl
    cases err with
    | some m =>
        simp only [PyOutcome.rateLimitError.injEq] at hrl
        simp [hrl]
    | none =>
        cases resp with
        | error e => simp at hrl
        | ok data =>
            cases hq : data.quotePrice with
            | some p => simp [hq] at hrl
            | none =>
                cases hn : data.note with
                | some n => simp [hq, hn] at hrl
                | none => simp [hq, hn] at hrl
  · intro st now resp hap
    have hc : (check_rate_limits st now).2 = none := by
      rw [check_rate_limits]
      by_cases hd : dayOf now ≠ st.last_reset_date <;> simp [hd, hap]
    rw [get_finnhub_price]
    rcases hcc : check_rate_limits st now with ⟨st1, err⟩
    rw [hcc] at hc
    cases err with
    | some m => exact absurd hc (by simp)
    | none =>
        cases resp with
        | error e => rfl
        | ok data =>
            cases hq : data.c with
            | some v =>
                by_cases hv : (0 : Rat) < v <;> simp [hq, hv, isRateLimitError]
            | none => simp [hq, isRateLimitError]

/-- Witness for C5 (amended) at concrete states and responses. -/
theorem rate_limit_detection_witness :
    ((get_alpha_vantage_price ⟨"alpha_vantage", 3, 0, none⟩ 0
        (.ok ⟨none, some "rate limit note"⟩)).1 = .ok none) ∧
    ((get_alpha_vantage_price ⟨"alpha_vantage", 3, 0, none⟩ 0
        (.ok ⟨some 55, none⟩)).1 = .ok (some 55)) ∧
    isRateLimitError (get_finnhub_price ⟨"finnhub", 0, 0, none⟩ 0
        (.error "HTTP 429 Too Many Requests")).1 = false :=
  ⟨rate_limit_detection.1 ⟨"alpha_vantage", 3, 0, none⟩ 0 "rate limit note"
      (by decide),
   rate_limit_detection.2.1 ⟨"alpha_vantage", 3, 0, none⟩ 0 55 none
      (by decide),
   rate_limit_detection.2.2.2 ⟨"finnhub", 0, 0, none⟩ 0
      (.error "HTTP 429 Too Many Requests") rfl⟩

/-! ## Lemmas about `get_company_name` -/

/-- A truthy cached name is returned at once, with no provider call and no
state change. -/
theorem get_company_name_hit (oracle : String → String → NameOutcome)
    (now : Nat) (st : NameState) (ticker : String)
    (hcache : (dictGet? st.company_cache (pyUpper ticker)).getD "" ≠ "") :
    get_company_name oracle now st ticker =
      ⟨(dictGet? st.company_cache (pyUpper ticker)).getD "", st, []⟩ := by
  rw [get_company_name]
  simp only [if_pos hcache]

/-- On a cache miss (no entry, or the falsy empty string), the provider
loop runs and the final name is stored under the uppercased ticker. -/
theorem get_company_name_miss (oracle : String → String → NameOutcome)
    (now : Nat) (st : NameState) (ticker : String)
    (hcache : (dictGet? st.company_cache (pyUpper ticker)).getD "" = "") :
    get_company_name oracle now st ticker =
      ⟨(match (nameLoop oracle now (pyUpper ticker) st.provider_cooldowns none
          provider_order).1 with
        | some n => if n = "" then pyUpper ticker else n
        | none => pyUpper ticker),
       ⟨dictInsert st.company_cache (pyUpper ticker)
          (match (nameLoop oracle now (pyUpper ticker) st.provider_cooldowns
              none provider_order).1 with
            | some n => if n = "" then pyUpper ticker else n
            | none => pyUpper ticker),
        (nameLoop oracle now (pyUpper ticker) st.provider_cooldowns none
          provider_order).2.1⟩,
       (nameLoop oracle now (pyUpper ticker) st.provider_cooldowns none
          provider_order).2.2⟩ := by
  rw [get_company_name]
  simp only [hcache, ne_eq, not_true_eq_false, if_false]

/-- The fallback name (`name or ticker`) is never the empty string when
the ticker is non-empty. -/
theorem fallback_name_ne_empty (o : Option String) (t : String) (ht : t ≠ "") :
    (match o with
      | some n => if n = "" then t else n
      | none => t) ≠ "" := by
  cases o with
  | none => exact ht
  | some n =>
      by_cases hn : n = ""
      · simp [hn]
        exact ht
      · simp [hn]

/-- C6 counterexample: for the empty ticker the first call caches the
falsy empty name, so the second call runs the provider loop again —
`get_company_name` is not idempotent on the empty symbol. -/
theorem get_company_name_empty_counterexample :
    (get_company_name (fun _ _ => .ok none) 0 ⟨[], []⟩ "").state.company_cache
      = [("", "")] ∧
    (get_company_name (fun _ _ => .ok none) 0
      (get_company_name (fun _ _ => .ok none) 0 ⟨[], []⟩ "").state "").calls
      = [("finnhub", ""), ("alpha_vantage", "")] := by
  decide

/-- C6 (amended): for every non-empty symbol, `get_company_name` performs
provider lookups at most on the first call: the first call always caches
its (truthy) result — even when it equals the symbol itself — and a
second call with no intervening cache clear makes no provider call,
returns the same name, and leaves the state unchanged. -/
theorem get_company_name_idempotent
    (oracle1 oracle2 : String → String → NameOutcome) (now1 now2 : Nat)
    (st : NameState) (ticker : String) (h : ticker ≠ "") :
    (get_company_name oracle2 now2
      (get_company_name oracle1 now1 st ticker).state ticker).calls = [] ∧
    (get_company_name oracle2 now2
      (get_company_name oracle1 now1 st ticker).state ticker).name =
      (get_company_name oracle1 now1 st ticker).name ∧
    (get_company_name oracle2 now2
      (get_company_name oracle1 now1 st ticker).state ticker).state =
      (get_company_name oracle1 now1 st ticker).state := by
  have ht : pyUpper ticker ≠ "" := pyUpper_ne_empty ticker h
  by_cases hcache : (dictGet? st.company_cache (pyUpper ticker)).getD "" ≠ ""
  · rw [get_company_name_hit oracle1 now1 st ticker hcache]
    rw [get_company_name_hit oracle2 now2 st ticker hcache]
    exact ⟨rfl, rfl, rfl⟩
  · have hc0 : (dictGet? st.company_cache (pyUpper ticker)).getD "" = "" := by
      by_contra hne
      exact hcache hne
    rw [get_company_name_miss oracle1 now1 st ticker hc0]
    have hstore : dictGet? (dictInsert st.company_cache (pyUpper ticker)
        (match (nameLoop oracle1 now1 (pyUpper ticker) st.provider_cooldowns
            none provider_order).1 with
          | some n => if n = "" then pyUpper ticker else n
          | none => pyUpper ticker)) (pyUpper ticker) =
        some (match (nameLoop oracle1 now1 (pyUpper ticker)
            st.provider_cooldowns none provider_order).1 with
          | some n => if n = "" then pyUpper ticker else n
          | none => pyUpper ticker) :=
      dictGet?_insert_self _ _ _
    have hname : (match (nameLoop oracle1 now1 (pyUpper ticker)
        st.provider_cooldowns none provider_order).1 with
      | some n => if n = "" then pyUpper ticker else n
      | none => pyUpper ticker) ≠ "" :=
      fallback_name_ne_empty _ _ ht
    have hcache2 : (dictGet? (⟨dictInsert st.company_cache (pyUpper ticker)
        (match (nameLoop oracle1 now1 (pyUpper ticker) st.provider_cooldowns
            none provider_order).1 with
          | some n => if n = "" then pyUpper ticker else n
          | none => pyUpper ticker),
        (nameLoop oracle1 now1 (pyUpper ticker) st.provider_cooldowns none
          provider_order).2.1⟩ : NameState).company_cache
        (pyUpper ticker)).getD "" ≠ "" := by
      simpa [hstore] using hname
    rw [get_company_name_hit oracle2 now2 _ ticker hcache2]
    refine ⟨rfl, ?_, rfl⟩
    simp [hstore]

/-- Witness for C6 (amended): concrete oracles where the only candidate
equals the ticker, so the cached name is the ticker itself, and the second
call is served from cache. -/
theorem get_company_name_idempotent_witness :
    "AAPL" ≠ "" ∧
    ((get_company_name (fun _ _ => .ok none) 0
      (get_company_name (fun _ _ => .ok none) 0 ⟨[], []⟩ "AAPL").state
      "AAPL").calls = [] ∧
    (get_company_name (fun _ _ => .ok none) 0
      (get_company_name (fun _ _ => .ok none) 0 ⟨[], []⟩ "AAPL").state
      "AAPL").name =
      (get_company_name (fun _ _ => .ok none) 0 ⟨[], []⟩ "AAPL").name ∧
    (get_company_name (fun _ _ => .ok none) 0
      (get_company_name (fun _ _ => .ok none) 0 ⟨[], []⟩ "AAPL").state
      "AAPL").state =
      (get_company_name (fun _ _ => .ok none) 0 ⟨[], []⟩ "AAPL").state) :=
  ⟨by decide,
   get_company_name_idempotent (fun _ _ => .ok none) (fun _ _ => .ok none)
     0 0 ⟨[], []⟩ "AAPL" (by decide)⟩

/-- C8 counterexample: `get_current_prices` stores the fetched price in
the cache under the ticker exactly as passed (here lowercase `"aapl"`),
not under the uppercased ticker: a lookup at `"AAPL"` (which is
`"aapl".upper()`) misses. -/
theorem price_cache_key_counterexample :
    (get_current_prices (fun _ _ => .ok (some 10)) 0 ⟨[], []⟩
      ["aapl"]).state.cached_prices = [("aapl", 10)] ∧
    dictGet? (get_current_prices (fun _ _ => .ok (some 10)) 0 ⟨[], []⟩
      ["aapl"]).state.cached_prices "AAPL" = none ∧
    pyUpper "aapl" = "AAPL" := by
  decide

/-- C8 (amended): only the company-name cache is canonicalized to
uppercase — `get_company_name` looks up and stores under the uppercased
ticker — while `get_current_prices` stores fetched prices and reads cached
fallbacks under the ticker string exactly as passed, so the same symbol in
different letter cases hits the same name-cache entry but distinct
price-cache entries. -/
theorem cache_key_canonicalization :
    (∀ (oracle : String → String → NameOutcome) (now : Nat) (st : NameState)
      (ticker : String),
      ((dictGet? st.company_cache (pyUpper ticker)).getD "" ≠ "" →
        get_company_name oracle now st ticker =
          ⟨(dictGet? st.company_cache (pyUpper ticker)).getD "", st, []⟩) ∧
      ((dictGet? st.company_cache (pyUpper ticker)).getD "" = "" →
        (get_company_name oracle now st ticker).state.company_cache =
          dictInsert st.company_cache (pyUpper ticker)
            (get_company_name oracle now st ticker).name)) ∧
    (∀ (oracle : String → String → ProviderOutcome) (now : Nat)
      (st : PricesState) (t : String) (p : Rat),
      (fetchFromProviders oracle now t st.provider_cooldowns
        provider_order).price = some p →
      (get_current_prices oracle now st [t]).state.cached_prices =
        dictInsert st.cached_prices t p) ∧
    (∀ (oracle : String → String → ProviderOutcome) (now : Nat)
      (st : PricesState) (t : String),
      (fetchFromProviders oracle now t st.provider_cooldowns
        provider_order).price = none →
      dictGet? (get_current_prices oracle now st [t]).prices t =
        some (dictGet? st.cached_prices t)) := by
  refine ⟨fun oracle now st ticker => ⟨?_, ?_⟩, ?_, ?_⟩
  · intro hcache
    exact get_company_name_hit oracle now st ticker hcache
  · intro hcache
    rw [get_company_name_miss oracle now st ticker hcache]
  · intro oracle now st t p hp
    rw [get_current_prices, get_current_prices_go]
    simp only [hp]
    rw [get_current_prices_go]
  · intro oracle now st t hp
    rw [get_current_prices, get_current_prices_go]
    simp only [hp]
    rw [get_current_prices_go]
    exact dictGet?_insert_self _ _ _

/-- Witness for C8 (amended): a mixed-case lookup hits the uppercase
name-cache entry, and a concrete successful fetch stores the price under
the lowercase ticker as passed. -/
theorem cache_key_canonicalization_witness :
    (get_company_name (fun _ _ => .ok none) 0
        ⟨[("AAPL", "Apple Inc")], []⟩ "aapl" =
      ⟨"Apple Inc", ⟨[("AAPL", "Apple Inc")], []⟩, []⟩) ∧
    ((get_current_prices (fun _ _ => .ok (some 10)) 0 ⟨[], []⟩
        ["aapl"]).state.cached_prices = dictInsert [] "aapl" 10) := by
  constructor
  · have h := (cache_key_canonicalization.1 (fun _ _ => .ok none) 0
      ⟨[("AAPL", "Apple Inc")], []⟩ "aapl").1 (by decide)
    have he : (dictGet? (⟨[("AAPL", "Apple Inc")], []⟩ :
        NameState).company_cache (pyUpper "aapl")).getD "" = "Apple Inc" := by
      decide
    rw [h, he]
  · exact cache_key_canonicalization.2.1 (fun _ _ => .ok (some 10)) 0
      ⟨[], []⟩ "aapl" 10 (by decide)

/-! ## Claims about `portfolio_manager.py` -/

/-- C10: `add_stock` is a silent no-op for duplicates — when the ticker is
already in `stocks`, all five parallel lists are left unchanged and no
error is raised (`add_stock` is total in the model). -/
theorem add_stock_duplicate_noop (pm : PortfolioManager) (ticker : String)
    (perc shares purchase_price : Rat) (purchase_date today : String)
    (h : ticker ∈ pm.stocks) :
    pm.add_stock ticker perc shares purchase_price purchase_date today = pm := by
  simp [PortfolioManager.add_stock, h]

/-- Witness for C10 at a concrete duplicate insertion. -/
theorem add_stock_duplicate_noop_witness :
    PortfolioManager.add_stock
      ⟨["AAPL", "MSFT"], [60, 40], [2, 3], [150, 300], ["2024-01-02", ""]⟩
      "AAPL" 10 1 99 "2024-05-01" "2024-06-01" =
      ⟨["AAPL", "MSFT"], [60, 40], [2, 3], [150, 300], ["2024-01-02", ""]⟩ :=
  add_stock_duplicate_noop
    ⟨["AAPL", "MSFT"], [60, 40], [2, 3], [150, 300], ["2024-01-02", ""]⟩
    "AAPL" 10 1 99 "2024-05-01" "2024-06-01" (by decide)

/-- Accumulator form of `calculate_totals_go`: running totals add to the
totals computed from zero. -/
theorem calculate_totals_go_acc (cps : List (String × Option Rat)) :
    ∀ (l : List (String × Rat × Rat)) (a b : Rat),
    calculate_totals_go cps l a b =
      (a + (calculate_totals_go cps l 0 0).1,
       b + (calculate_totals_go cps l 0 0).2) := by
  intro l
  induction l with
  | nil => intro a b; simp [calculate_totals_go]
  | cons e rest ih =>
      intro a b
      obtain ⟨t, sh, ip⟩ := e
      simp only [calculate_totals_go]
      rw [ih, ih (0 + _)]
      simp only [Prod.mk.injEq]
      constructor <;> ring

/-- C9: a stock whose current price is missing from the mapping, or mapped
to `None`, is valued at its initial price by `calculate_totals`: it
contributes exactly `0` to total P&L and `initial_price * shares` to total
value. -/
theorem calculate_totals_missing_price (t : String) (sh ip : Rat)
    (S : List String) (AL SH IP : List Rat) (PD : List String)
    (cps : List (String × Option Rat))
    (h : dictGet? cps t = none ∨ dictGet? cps t = some none) :
    PortfolioManager.calculate_totals ⟨t :: S, AL, sh :: SH, ip :: IP, PD⟩ cps =
      ((PortfolioManager.calculate_totals ⟨S, AL, SH, IP, PD⟩ cps).1 + 0,
       (PortfolioManager.calculate_totals ⟨S, AL, SH, IP, PD⟩ cps).2 + ip * sh) := by
  simp only [PortfolioManager.calculate_totals, List.zip_cons_cons,
    calculate_totals_go]
  rcases h with h | h <;>
    rw [h] <;>
    simp only [List.zip, sub_self, zero_mul, add_zero, zero_add] <;>
    rw [calculate_totals_go_acc] <;>
    simp only [Prod.mk.injEq] <;>
    constructor <;>
    ring

/-- Witness for C9: a portfolio with a quoted stock and one (`"GOOG"`)
whose price is `None` in the mapping. -/
theorem calculate_totals_missing_price_witness :
    PortfolioManager.calculate_totals
        ⟨["GOOG", "AAPL"], [50, 50], [2, 3], [10, 20], ["", ""]⟩
        [("GOOG", none), ("AAPL", some 30)] =
      ((PortfolioManager.calculate_totals
          ⟨["AAPL"], [50, 50], [3], [20], [""]⟩
          [("GOOG", none), ("AAPL", some 30)]).1 + 0,
       (PortfolioManager.calculate_totals
          ⟨["AAPL"], [50, 50], [3], [20], [""]⟩
          [("GOOG", none), ("AAPL", some 30)]).2 + 10 * 2) :=
  calculate_totals_missing_price "GOOG" 2 10 ["AAPL"] [50, 50] [3] [20] [""]
    [("GOOG", none), ("AAPL", some 30)] (Or.inr (by decide))

/-! ## Claim about `aifunder.py` (single-flight refresh) -/

/-- C3: triggering a refresh while one is in progress (the `_updating`
flag is set, or the update lock is held) is a no-op that starts no second
refresh and changes no state; and whenever a refresh run does start
(the lock was acquired), the coordinator ends it with the lock released
and the `_updating` flag cleared, for every body outcome — normal
completion, the early no-prices return, or a raised exception. -/
theorem refresh_single_flight_and_idle (st : TrackerState)
    (o : RefreshOutcome) :
    ((st.updating = true ∨ st.update_lock = true) →
      trigger_refresh st o = (st, false)) ∧
    ((trigger_refresh st o).2 = true →
      (trigger_refresh st o).1.update_lock = false ∧
      (trigger_refresh st o).1.updating = false) := by
  obtain ⟨cl, hs, lk, up⟩ := st
  cases o <;> cases cl <;> cases hs <;> cases lk <;> cases up <;>
    simp [trigger_refresh, update_portfolio]

/-- Witness for C3: a trigger during an update is a no-op, and a run whose
body raises still ends idle. -/
theorem refresh_single_flight_and_idle_witness :
    (trigger_refresh ⟨false, true, true, true⟩ .normal =
      (⟨false, true, true, true⟩, false)) ∧
    ((trigger_refresh ⟨false, true, false, false⟩ (.raises "boom")).1.update_lock
        = false ∧
     (trigger_refresh ⟨false, true, false, false⟩ (.raises "boom")).1.updating
        = false) :=
  ⟨(refresh_single_flight_and_idle ⟨false, true, true, true⟩ .normal).1
      (Or.inl rfl),
   (refresh_single_flight_and_idle ⟨false, true, false, false⟩
      (.raises "boom")).2 rfl⟩

/-! ## Claim about `logger.py` (portfolio persistence) -/

theorem jsonStrList?_map_str (l : List String) :
    jsonStrList? (.arr (l.map .str)) = some l := by
  simp only [jsonStrList?]
  induction l with
  | nil => rfl
  | cons x xs ih =>
      simp only [List.map_cons, List.mapM_cons] at *
      rw [ih]
      rfl

theorem jsonNumList?_map_num (l : List Rat) :
    jsonNumList? (.arr (l.map .num)) = some l := by
  simp only [jsonNumList?]
  induction l with
  | nil => rfl
  | cons x xs ih =>
      simp only [List.map_cons, List.mapM_cons] at *
      rw [ih]
      rfl

/-- C7: `save_portfolio` followed by `load_portfolio` is lossless: the
loaded configuration exists and every stored sequence — total investment,
stocks, allocations, shares, initial prices, purchase dates, and the
optional company names and description — is reproduced identically and in
order. -/
theorem save_load_portfolio_roundtrip (ti : Rat) (stocks : List String)
    (al sh ip : List Rat) (pd : List String)
    (names : Option (List String)) (desc : Option String) :
    ∃ j, load_portfolio (some (save_portfolio ti stocks al sh ip pd names desc))
        = some j ∧
      jsonField? j "total_investment" = some (.num ti) ∧
      (jsonField? j "stocks").bind jsonStrList? = some stocks ∧
      (jsonField? j "allocations").bind jsonNumList? = some al ∧
      (jsonField? j "shares").bind jsonNumList? = some sh ∧
      (jsonField? j "initial_prices").bind jsonNumList? = some ip ∧
      (jsonField? j "purchase_dates").bind jsonStrList? = some pd ∧
      (jsonField? j "company_names").bind jsonStrList? = names ∧
      jsonField? j "description" = desc.map .str := by
  refine ⟨save_portfolio ti stocks al sh ip pd names desc, rfl, ?_⟩
  cases names <;> cases desc <;>
    simp [save_portfolio, jsonField?, dictGet?, jsonStrList?_map_str,
      jsonNumList?_map_num]

end Funder
